import Mathlib

/-!
Verification of the stream-processing core of the `sensor` repository
(`src/vps/processor.py`).  Python floats are idealised as rationals;
`time.time()` (the wall clock) is made an explicit input `now` of each
step.  Fallible library calls (`statistics.median` on an empty sequence,
`statistics.variance` on fewer than two points, division by a zero
count) are modelled by `Option`-valued variants, and totality of the
actual code paths is proved.
-/

namespace Sensor

/-! ## Configuration constants (processor.py, module level) -/

def MEDIAN_WINDOW : ℕ := 7
def EMA_ALPHA : ℚ := 1/5
def MAX_JUMP : ℚ := 80
def OOO_SLACK_S : ℚ := 1
def RESIDUAL_WINDOW : ℕ := 20
def NOISY_RESIDUAL_THRESH : ℚ := 60
def NOISY_PERSIST_S : ℚ := 3
def SPIKE_CLAMP_WINDOW : ℕ := 30
def SPIKE_CLAMP_THRESH : ℕ := 3
def MOISTURE_DRY : ℚ := 350
def MOISTURE_OVERWATER : ℚ := 650

/-! ## Small numeric helpers -/

/-- `collections.deque(maxlen := n)` push: append on the right and evict
from the left whatever exceeds the capacity `n`. -/
def pushWindow (n : ℕ) (x : α) (l : List α) : List α :=
  let l2 := l ++ [x]
  l2.drop (l2.length - n)

/-- Round-half-to-even on rationals (the rounding rule of Python `round`). -/
def rhe (x : ℚ) : ℤ :=
  if x - (⌊x⌋ : ℚ) < 1/2 then ⌊x⌋
  else if 1/2 < x - (⌊x⌋ : ℚ) then ⌊x⌋ + 1
  else if ⌊x⌋ % 2 = 0 then ⌊x⌋ else ⌊x⌋ + 1

/-- Python `round(x, d)` on rationals. -/
def roundTo (d : ℕ) (x : ℚ) : ℚ :=
  (rhe (x * 10 ^ d) : ℚ) / 10 ^ d

/-- `math.copysign (x, y)` for the arguments this program uses
(`x > 0`, and `y ≠ 0` at every call site). -/
def copysignQ (x y : ℚ) : ℚ := if y < 0 then -x else x

/-- `statistics.median` on a non-empty list: sort, take the middle
element (odd length) or the mean of the two middle elements (even). -/
def medianQ (l : List ℚ) : ℚ :=
  let s := l.insertionSort (· ≤ ·)
  let n := l.length
  if n % 2 = 1 then s.getD (n / 2) 0
  else (s.getD (n / 2 - 1) 0 + s.getD (n / 2) 0) / 2

/-- `statistics.median`, with the `StatisticsError` on an empty sequence
made explicit. -/
def medianChecked (l : List ℚ) : Option ℚ :=
  if l.isEmpty then none else some (medianQ l)

/-- `statistics.variance`: unbiased sample variance (denominator `n − 1`). -/
def varianceQ (l : List ℚ) : ℚ :=
  let n := l.length
  let m := l.sum / (n : ℚ)
  (l.map (fun x => (x - m) ^ 2)).sum / ((n : ℚ) - 1)

/-- `statistics.variance`, with the `StatisticsError` on fewer than two
data points made explicit. -/
def varianceChecked (l : List ℚ) : Option ℚ :=
  if l.length < 2 then none else some (varianceQ l)

/-! ## Per-sensor state (`class SensorState`) -/

structure SensorState where
  sensor_id : String
  raw_buffer : List ℚ
  residual_buffer : List ℚ
  clamp_history : List ℕ
  ema : Option ℚ
  last_filtered : Option ℚ
  last_ts : ℚ
  total_received : ℕ
  total_ooo_dropped : ℕ
  noisy_since : ℚ
  is_noisy : Bool
deriving DecidableEq, Repr

/-- `SensorState.__init__`. -/
def initState (sid : String) : SensorState :=
  { sensor_id := sid
    raw_buffer := []
    residual_buffer := []
    clamp_history := []
    ema := none
    last_filtered := none
    last_ts := 0
    total_received := 0
    total_ooo_dropped := 0
    noisy_since := 0
    is_noisy := false }

/-- The dict returned by `SensorState.process`. -/
structure Reading where
  sensor_id : String
  ts : ℚ
  raw : ℚ
  median : ℚ
  filtered : ℚ
  status : String
  health : List String
  noise_score : ℚ
deriving DecidableEq, Repr

/-- `SensorState.try_accept`: reject packets older than the watermark
minus the slack, counting them. -/
def try_accept (st : SensorState) (ts : ℚ) : SensorState × Bool :=
  if 0 < st.last_ts ∧ ts < st.last_ts - OOO_SLACK_S then
    ({ st with total_ooo_dropped := st.total_ooo_dropped + 1 }, false)
  else (st, true)

/-- The sanity-clamp stage of `process`: returns the (possibly clamped)
median value that is carried forward into smoothing, and whether a clamp
event occurred. -/
def clampStep (last_filtered : Option ℚ) (medianVal : ℚ) : ℚ × Bool :=
  match last_filtered with
  | some lf =>
      if MAX_JUMP < |medianVal - lf| then
        (lf + copysignQ MAX_JUMP (medianVal - lf), true)
      else (medianVal, false)
  | none => (medianVal, false)

/-- The EMA-smoothing stage of `process` (before rounding). -/
def emaStep (ema : Option ℚ) (medianVal : ℚ) : ℚ :=
  match ema with
  | none => medianVal
  | some e => EMA_ALPHA * medianVal + (1 - EMA_ALPHA) * e

/-- The residual-based noise stage of `process`: the residual variance
used downstream and the reported noise score. -/
def resVarScore (buf : List ℚ) : ℚ × ℚ :=
  if 3 ≤ buf.length then
    let v := varianceQ buf
    (v, roundTo 3 (min (v / 500) 1))
  else (0, 0)

/-- `resVarScore` with the fallible `statistics.variance` call explicit. -/
def resVarScoreChecked (buf : List ℚ) : Option (ℚ × ℚ) :=
  if 3 ≤ buf.length then
    (varianceChecked buf).map (fun v => (v, roundTo 3 (min (v / 500) 1)))
  else some (0, 0)

/-- The NOISY-persistence stage of `process`: from the previous
`(noisy_since, is_noisy)` pair, the residual variance and the current
wall clock, compute the new pair. -/
def noiseStep (noisy_since : ℚ) (noisy : Bool) (res_var now : ℚ) : ℚ × Bool :=
  if NOISY_RESIDUAL_THRESH < res_var then
    let ns := if noisy_since = 0 then now else noisy_since
    (ns, if NOISY_PERSIST_S ≤ now - ns then true else noisy)
  else (0, false)

/-- The health-label stage of `process`. -/
def healthOf (noisy : Bool) (ch : List ℕ) : List String :=
  let h := (if noisy then ["NOISY"] else [])
             ++ (if SPIKE_CLAMP_THRESH ≤ ch.sum then ["SPIKY"] else [])
  if h.isEmpty then ["OK"] else h

/-- The status-classification stage of `process`. -/
def statusOf (filtered : ℚ) : String :=
  if filtered < MOISTURE_DRY then "DRY"
  else if MOISTURE_OVERWATER < filtered then "OVERWATER"
  else "OK"

/-- `SensorState.process`, with the wall clock `now` as an explicit
input.  Returns the updated state and the produced reading. -/
def process (st : SensorState) (raw ts now : ℚ) : SensorState × Reading :=
  let rb := pushWindow MEDIAN_WINDOW raw st.raw_buffer
  let mv0 := medianQ rb
  let cl := clampStep st.last_filtered mv0
  let ch := pushWindow SPIKE_CLAMP_WINDOW (if cl.2 then 1 else 0) st.clamp_history
  let emaNew := emaStep st.ema cl.1
  let filtered := roundTo 2 emaNew
  let resb := pushWindow RESIDUAL_WINDOW (raw - filtered) st.residual_buffer
  let vs := resVarScore resb
  let ns := noiseStep st.noisy_since st.is_noisy vs.1 now
  ({ st with
      raw_buffer := rb
      residual_buffer := resb
      clamp_history := ch
      ema := some emaNew
      last_filtered := some filtered
      last_ts := max st.last_ts ts
      total_received := st.total_received + 1
      noisy_since := ns.1
      is_noisy := ns.2 },
   { sensor_id := st.sensor_id
     ts := ts
     raw := raw
     median := roundTo 2 cl.1
     filtered := filtered
     status := statusOf filtered
     health := healthOf ns.2 ch
     noise_score := vs.2 })

/-- `SensorState.process` with every fallible statistics call explicit:
`none` would mean an uncaught exception in the Python code. -/
def processChecked (st : SensorState) (raw ts now : ℚ) :
    Option (SensorState × Reading) :=
  let rb := pushWindow MEDIAN_WINDOW raw st.raw_buffer
  (medianChecked rb).bind (fun mv0 =>
    let cl := clampStep st.last_filtered mv0
    let ch := pushWindow SPIKE_CLAMP_WINDOW (if cl.2 then 1 else 0) st.clamp_history
    let emaNew := emaStep st.ema cl.1
    let filtered := roundTo 2 emaNew
    let resb := pushWindow RESIDUAL_WINDOW (raw - filtered) st.residual_buffer
    (resVarScoreChecked resb).map (fun vs =>
      let ns := noiseStep st.noisy_since st.is_noisy vs.1 now
      ({ st with
          raw_buffer := rb
          residual_buffer := resb
          clamp_history := ch
          ema := some emaNew
          last_filtered := some filtered
          last_ts := max st.last_ts ts
          total_received := st.total_received + 1
          noisy_since := ns.1
          is_noisy := ns.2 },
       { sensor_id := st.sensor_id
         ts := ts
         raw := raw
         median := roundTo 2 cl.1
         filtered := filtered
         status := statusOf filtered
         health := healthOf ns.2 ch
         noise_score := vs.2 })))

/-- One accepted-or-rejected step of the per-pipeline ingestion path:
`try_accept` followed, on acceptance, by `process`. -/
def ingest (st : SensorState) (raw ts now : ℚ) : SensorState × Option Reading :=
  match try_accept st ts with
  | (st1, false) => (st1, none)
  | (st1, true) =>
      let pr := process st1 raw ts now
      (pr.1, some pr.2)

/-- A sample fed to `process`: `(raw, ts, now)`. -/
abbrev Sample := ℚ × ℚ × ℚ

/-- Fold `process` over a list of samples (all accepted). -/
def processList (st : SensorState) (samples : List Sample) : SensorState :=
  samples.foldl (fun s c => (process s c.1 c.2.1 c.2.2).1) st

/-- Fold of the NOISY-persistence stage alone over a list of
`(res_var, now)` call descriptions, from the initial
`(noisy_since, is_noisy) = (0, false)`. -/
def runNoise (calls : List (ℚ × ℚ)) : ℚ × Bool :=
  calls.foldl (fun s c => noiseStep s.1 s.2 c.1 c.2) (0, false)

/-! ## Registry and dispatcher (`make_callbacks.on_message`) -/

/-- Dict lookup `sensors[sid]` (first binding wins; the registry never
holds two bindings for one id). -/
def regGet : List (String × SensorState) → String → Option SensorState
  | [], _ => none
  | p :: rest, sid => if p.1 = sid then some p.2 else regGet rest sid

/-- Dict store `sensors[sid] = st`: replace the existing binding in
place, or append a new one (Python dicts preserve insertion order). -/
def regSet : List (String × SensorState) → String → SensorState →
    List (String × SensorState)
  | [], sid, st => [(sid, st)]
  | p :: rest, sid, st =>
      if p.1 = sid then (sid, st) :: rest else p :: regSet rest sid st

/-- An inbound MQTT message after JSON decoding: either undecodable, or
a payload whose fields may individually be missing. -/
inductive InMsg where
  | undecodable : InMsg
  | payload (sid : Option String) (raw : Option ℚ) (ts : Option ℚ) : InMsg

/-- `on_message`: decode, apply the field defaults (`sensor_id` →
`"unknown"`, `ts` → `time.time()`), drop when `moisture_raw` is absent,
get-or-create the pipeline, run the out-of-order guard, process, and
publish on `irrigation/processed/<sensor_id>`.  Returns the updated
registry and the optionally published `(topic, reading)`. -/
def on_message (sensors : List (String × SensorState)) (m : InMsg) (now : ℚ) :
    List (String × SensorState) × Option (String × Reading) :=
  match m with
  | .undecodable => (sensors, none)
  | .payload sid? raw? ts? =>
      let sensor_id := sid?.getD "unknown"
      let ts := ts?.getD now
      match raw? with
      | none => (sensors, none)
      | some raw =>
          let sensors1 :=
            if (regGet sensors sensor_id).isSome then sensors
            else sensors ++ [(sensor_id, initState sensor_id)]
          let st0 := (regGet sensors1 sensor_id).getD (initState sensor_id)
          match try_accept st0 ts with
          | (st1, false) => (regSet sensors1 sensor_id st1, none)
          | (st1, true) =>
              let pr := process st1 raw ts now
              (regSet sensors1 sensor_id pr.1,
               some ("irrigation/processed/" ++ sensor_id, pr.2))

/-! ## Health summary (`print_health_summary`), noise-score part -/

/-- The `scores` list built by the summary loop: one unclamped
`variance / 500` entry per sensor whose residual buffer holds at least
3 samples, in registry order. -/
def summaryScores (sensors : List (String × SensorState)) : List ℚ :=
  sensors.foldr
    (fun p acc =>
      if 3 ≤ p.2.residual_buffer.length then
        varianceQ p.2.residual_buffer / 500 :: acc
      else acc) []

/-- `avg_noise` as printed by `print_health_summary`. -/
def summaryAvgNoise (sensors : List (String × SensorState)) : ℚ :=
  let scores := summaryScores sensors
  if scores.isEmpty then 0
  else roundTo 3 (min (scores.sum / (scores.length : ℚ)) 1)

/-- `summaryScores` with the fallible `statistics.variance` call
explicit. -/
def summaryScoresChecked (sensors : List (String × SensorState)) :
    Option (List ℚ) :=
  sensors.foldr
    (fun p acc => acc.bind (fun l =>
      if 3 ≤ p.2.residual_buffer.length then
        (varianceChecked p.2.residual_buffer).map (fun v => v / 500 :: l)
      else some l)) (some [])

/-- `avg_noise` with every fallible step explicit. -/
def summaryAvgNoiseChecked (sensors : List (String × SensorState)) :
    Option ℚ :=
  (summaryScoresChecked sensors).map (fun scores =>
    if scores.isEmpty then 0
    else roundTo 3 (min (scores.sum / (scores.length : ℚ)) 1))

/-- Modelled from the spec (claim C7's reading of the summary): the mean
over eligible sensors of the *individually clamped* noise scores
`clamp(variance / 500, 0, 1)`, to be compared with `summaryAvgNoise`. -/
def specMeanClampedScores (sensors : List (String × SensorState)) : ℚ :=
  let scores :=
    (sensors.filter (fun p => 3 ≤ p.2.residual_buffer.length)).map
      (fun p => min (max (varianceQ p.2.residual_buffer / 500) 0) 1)
  if scores.isEmpty then 0
  else scores.sum / (scores.length : ℚ)

/-! ## Helper lemmas -/

lemma floor_eq_of (n : ℤ) (x : ℚ) (h1 : (n : ℚ) ≤ x) (h2 : x < n + 1) : ⌊x⌋ = n := by
  rw [Int.floor_eq_iff]
  exact ⟨h1, by exact_mod_cast h2⟩

lemma rhe_intCast (n : ℤ) : rhe (n : ℚ) = n := by
  simp [rhe, Int.floor_intCast]

lemma roundTo_intCast (d : ℕ) (n : ℤ) : roundTo d (n : ℚ) = n := by
  have h : ((n : ℚ) * 10 ^ d) = ((n * 10 ^ d : ℤ) : ℚ) := by push_cast; ring
  rw [roundTo, h, rhe_intCast]
  push_cast
  field_simp

lemma roundTo_zero (d : ℕ) : roundTo d 0 = 0 := by
  simpa using roundTo_intCast d 0

lemma roundTo_one (d : ℕ) : roundTo d 1 = 1 := by
  simpa using roundTo_intCast d 1

lemma rhe_nonneg (x : ℚ) (hx : 0 ≤ x) : 0 ≤ rhe x := by
  have hf : (0 : ℤ) ≤ ⌊x⌋ := Int.floor_nonneg.2 hx
  unfold rhe
  split
  · exact hf
  · split
    · omega
    · split <;> omega

lemma rhe_le_intCast (x : ℚ) (m : ℤ) (hx : x ≤ (m : ℚ)) : rhe x ≤ m := by
  have hf : ⌊x⌋ ≤ m := by
    have := Int.floor_le_floor hx
    simpa using this
  unfold rhe
  split
  · exact hf
  · have hlt : (⌊x⌋ : ℚ) < x := by
      rename_i h
      push_neg at h
      have h2 : (1 : ℚ) / 2 ≤ x - ⌊x⌋ := h
      nlinarith
    have : ⌊x⌋ < m := by
      have : (⌊x⌋ : ℚ) < (m : ℚ) := lt_of_lt_of_le hlt hx
      exact_mod_cast this
    split
    · omega
    · split <;> omega

lemma roundTo_nonneg (d : ℕ) (x : ℚ) (hx : 0 ≤ x) : 0 ≤ roundTo d x := by
  unfold roundTo
  have h10 : (0 : ℚ) < 10 ^ d := by positivity
  have h1 : (0 : ℤ) ≤ rhe (x * 10 ^ d) := rhe_nonneg _ (by positivity)
  have : (0 : ℚ) ≤ (rhe (x * 10 ^ d) : ℚ) := by exact_mod_cast h1
  positivity

lemma roundTo_le_one (d : ℕ) (x : ℚ) (hx : x ≤ 1) : roundTo d x ≤ 1 := by
  unfold roundTo
  have h10 : (0 : ℚ) < 10 ^ d := by positivity
  have h1 : rhe (x * 10 ^ d) ≤ (10 ^ d : ℤ) := by
    apply rhe_le_intCast
    push_cast
    nlinarith
  have h2 : (rhe (x * 10 ^ d) : ℚ) ≤ (10 : ℚ) ^ d := by exact_mod_cast h1
  rw [div_le_one h10]
  exact h2

lemma pushWindow_length (n : ℕ) (x : α) (l : List α) :
    (pushWindow n x l).length = min (l.length + 1) n := by
  simp [pushWindow]
  omega

lemma pushWindow_length_le (n : ℕ) (x : α) (l : List α) :
    (pushWindow n x l).length ≤ n := by
  rw [pushWindow_length]
  omega

lemma pushWindow_ne_nil (n : ℕ) (hn : 1 ≤ n) (x : α) (l : List α) :
    pushWindow n x l ≠ [] := by
  have h := pushWindow_length n x l
  intro hnil
  rw [hnil] at h
  simp at h
  omega

lemma medianChecked_of_ne_nil (l : List ℚ) (h : l ≠ []) :
    medianChecked l = some (medianQ l) := by
  simp [medianChecked, h]

lemma varianceChecked_of (l : List ℚ) (h : 2 ≤ l.length) :
    varianceChecked l = some (varianceQ l) := by
  simp [varianceChecked]
  omega

lemma resVarScoreChecked_eq (buf : List ℚ) :
    resVarScoreChecked buf = some (resVarScore buf) := by
  unfold resVarScoreChecked resVarScore
  split
  · rename_i h
    rw [varianceChecked_of _ (by omega)]
    rfl
  · rfl

lemma varianceQ_nonneg (l : List ℚ) (h : 2 ≤ l.length) : 0 ≤ varianceQ l := by
  unfold varianceQ
  apply div_nonneg
  · apply List.sum_nonneg
    intro x hx
    obtain ⟨y, _, rfl⟩ := List.mem_map.1 hx
    positivity
  · have : (2 : ℚ) ≤ (l.length : ℚ) := by exact_mod_cast h
    linarith

lemma regGet_regSet_self (sensors : List (String × SensorState)) (sid : String)
    (st : SensorState) : regGet (regSet sensors sid st) sid = some st := by
  induction sensors with
  | nil => simp [regGet, regSet]
  | cons p rest ih =>
      by_cases h : p.1 = sid
      · simp [regGet, regSet, h]
      · simp [regGet, regSet, h, ih]

lemma regGet_regSet_ne (sensors : List (String × SensorState)) (sid sid' : String)
    (st : SensorState) (h : sid' ≠ sid) :
    regGet (regSet sensors sid st) sid' = regGet sensors sid' := by
  induction sensors with
  | nil => simp [regGet, regSet, Ne.symm h]
  | cons p rest ih =>
      by_cases hp : p.1 = sid
      · simp [regGet, regSet, hp, Ne.symm h]
      · simp only [regSet, if_neg hp, regGet]
        by_cases hp' : p.1 = sid'
        · simp [hp']
        · simp [hp', ih]

lemma regSet_regSet (sensors : List (String × SensorState)) (sid : String)
    (a b : SensorState) : regSet (regSet sensors sid a) sid b = regSet sensors sid b := by
  induction sensors with
  | nil => simp [regSet]
  | cons p rest ih =>
      by_cases h : p.1 = sid
      · simp [regSet, h]
      · simp [regSet, h, ih]

lemma process_bounds (st : SensorState) (raw ts now : ℚ) :
    (process st raw ts now).1.raw_buffer.length ≤ 7 ∧
    (process st raw ts now).1.residual_buffer.length ≤ 20 ∧
    (process st raw ts now).1.clamp_history.length ≤ 30 :=
  ⟨pushWindow_length_le 7 _ _, pushWindow_length_le 20 _ _, pushWindow_length_le 30 _ _⟩

lemma processList_cons (st : SensorState) (c : Sample) (samples : List Sample) :
    processList st (c :: samples) = processList (process st c.1 c.2.1 c.2.2).1 samples := rfl

lemma processList_bounds_aux (samples : List Sample) (st : SensorState)
    (h1 : st.raw_buffer.length ≤ 7) (h2 : st.residual_buffer.length ≤ 20)
    (h3 : st.clamp_history.length ≤ 30) :
    (processList st samples).raw_buffer.length ≤ 7 ∧
    (processList st samples).residual_buffer.length ≤ 20 ∧
    (processList st samples).clamp_history.length ≤ 30 := by
  induction samples generalizing st with
  | nil => exact ⟨h1, h2, h3⟩
  | cons c rest ih =>
      rw [processList_cons]
      have hb := process_bounds st c.1 c.2.1 c.2.2
      exact ih _ hb.1 hb.2.1 hb.2.2

/-- Claim C2: for every finite sequence of accepted samples, the median
window never exceeds 7 entries, the residual window never exceeds 20 and
the clamp history never exceeds 30; the bounds hold after every single
`process` call (from any state) and hence after every call of a run
started from a fresh pipeline. -/
theorem window_bounds_invariant :
    (∀ st : SensorState, ∀ raw ts now : ℚ,
        (process st raw ts now).1.raw_buffer.length ≤ 7 ∧
        (process st raw ts now).1.residual_buffer.length ≤ 20 ∧
        (process st raw ts now).1.clamp_history.length ≤ 30) ∧
    (∀ sid : String, ∀ samples : List Sample,
        (processList (initState sid) samples).raw_buffer.length ≤ 7 ∧
        (processList (initState sid) samples).residual_buffer.length ≤ 20 ∧
        (processList (initState sid) samples).clamp_history.length ≤ 30) := by
  constructor
  · exact process_bounds
  · intro sid samples
    exact processList_bounds_aux samples (initState sid)
      (by simp [initState]) (by simp [initState]) (by simp [initState])

lemma summaryScoresChecked_eq (sensors : List (String × SensorState)) :
    summaryScoresChecked sensors = some (summaryScores sensors) := by
  induction sensors with
  | nil => rfl
  | cons p rest ih =>
      simp only [summaryScoresChecked, List.foldr_cons] at *
      rw [ih, Option.some_bind']
      by_cases h : 3 ≤ p.2.residual_buffer.length
      · rw [if_pos h, varianceChecked_of p.2.residual_buffer (by omega)]
        simp [summaryScores, h]
      · rw [if_neg h]
        simp [summaryScores, h]

/-- Claim C10: no error branch of the statistics calls or of the summary
average is reachable: with every fallible call made explicit
(`medianChecked`, `varianceChecked`, the guarded average), `process` and
the summary's noise average always return a value, and the checked
versions agree with the total ones — both are total functions of their
inputs. -/
theorem process_and_summary_total :
    (∀ st : SensorState, ∀ raw ts now : ℚ,
        processChecked st raw ts now = some (process st raw ts now)) ∧
    (∀ sensors : List (String × SensorState),
        summaryAvgNoiseChecked sensors = some (summaryAvgNoise sensors)) := by
  constructor
  · intro st raw ts now
    simp only [processChecked, process]
    rw [medianChecked_of_ne_nil _
        (pushWindow_ne_nil MEDIAN_WINDOW (by norm_num [MEDIAN_WINDOW]) raw st.raw_buffer)]
    rw [Option.some_bind']
    rw [resVarScoreChecked_eq]
    rfl
  · intro sensors
    simp only [summaryAvgNoiseChecked, summaryAvgNoise, summaryScoresChecked_eq]
    simp

/-- Claim C8 (counterexample): a decodable message that is missing the
required field `sensor_id` (but carries `moisture_raw` and `ts`) is not
dropped: fed to an empty registry it creates a pipeline (the registry
grows to one entry, keyed `"unknown"`) and publishes a reading. -/
theorem malformed_missing_id_processed_cex :
    ((on_message [] (InMsg.payload none (some 500) (some 100)) 0).2).isSome = true ∧
    ((on_message [] (InMsg.payload none (some 500) (some 100)) 0).1).length = 1 := by
  constructor
  · norm_num [on_message, regGet, try_accept, initState, OOO_SLACK_S]
  · norm_num [on_message, regGet, regSet, try_accept, initState, OOO_SLACK_S]

/-- Claim C8 (amended): an undecodable payload, or one missing
`moisture_raw`, is dropped with no pipeline created or mutated and
nothing published; but a missing `sensor_id` does not cause a drop — it
is defaulted to `"unknown"` — and a missing `ts` is defaulted to the
current wall-clock time, and such messages are processed normally. -/
theorem malformed_drop_amended :
    (∀ sensors : List (String × SensorState), ∀ now : ℚ,
        on_message sensors InMsg.undecodable now = (sensors, none)) ∧
    (∀ sensors : List (String × SensorState), ∀ now : ℚ,
        ∀ sid? : Option String, ∀ ts? : Option ℚ,
        on_message sensors (InMsg.payload sid? none ts?) now = (sensors, none)) ∧
    (∀ sensors : List (String × SensorState), ∀ now : ℚ,
        ∀ raw? : Option ℚ, ∀ ts? : Option ℚ,
        on_message sensors (InMsg.payload none raw? ts?) now =
          on_message sensors (InMsg.payload (some "unknown") raw? ts?) now) ∧
    (∀ sensors : List (String × SensorState), ∀ now : ℚ,
        ∀ sid? : Option String, ∀ raw? : Option ℚ,
        on_message sensors (InMsg.payload sid? raw? none) now =
          on_message sensors (InMsg.payload sid? raw? (some now)) now) := by
  refine ⟨fun _ _ => rfl, fun _ _ _ _ => rfl, fun _ _ _ _ => rfl, fun _ _ _ _ => rfl⟩

/-- Claim C4: whenever `lastFiltered` is set and the fresh median is more
than 80.0 away from it, the value carried into smoothing is
`lastFiltered ± 80.0` (sign of the delta) and a clamp event is pushed
into the clamp history; in every other call a no-clamp event is pushed;
with `lastFiltered = 500` and median `700` the clamped value is `580`.
(`process` records `clampStep`'s boolean in `clampHistory` and feeds
`clampStep`'s value into the EMA.) -/
theorem clamp_step_correct :
    (∀ st : SensorState, ∀ raw ts now : ℚ,
        (process st raw ts now).1.clamp_history =
          pushWindow 30
            (if (clampStep st.last_filtered (medianQ (pushWindow 7 raw st.raw_buffer))).2
             then 1 else 0) st.clamp_history ∧
        (process st raw ts now).1.ema =
          some (emaStep st.ema
            (clampStep st.last_filtered (medianQ (pushWindow 7 raw st.raw_buffer))).1)) ∧
    (∀ lf mv : ℚ, 80 < |mv - lf| →
        (lf < mv → clampStep (some lf) mv = (lf + 80, true)) ∧
        (mv < lf → clampStep (some lf) mv = (lf - 80, true))) ∧
    (∀ lf mv : ℚ, |mv - lf| ≤ 80 → clampStep (some lf) mv = (mv, false)) ∧
    (∀ mv : ℚ, clampStep none mv = (mv, false)) ∧
    clampStep (some 500) 700 = (580, true) := by
  refine ⟨fun st raw ts now => ⟨rfl, rfl⟩, ?_, ?_, fun mv => rfl, ?_⟩
  · intro lf mv h
    constructor
    · intro hlt
      have hs : ¬ (mv - lf < 0) := by linarith
      simp [clampStep, MAX_JUMP, copysignQ, h, hs]
    · intro hlt
      have hs : mv - lf < 0 := by linarith
      have : lf + -(80 : ℚ) = lf - 80 := by ring
      simp [clampStep, MAX_JUMP, copysignQ, h, hs, this]
  · intro lf mv h
    have : ¬ (MAX_JUMP < |mv - lf|) := by simp [MAX_JUMP]; linarith
    simp [clampStep, this]
  · have h : (80 : ℚ) < |(700 : ℚ) - 500| := by norm_num
    have hs : ¬ ((700 : ℚ) - 500 < 0) := by norm_num
    simp [clampStep, MAX_JUMP, copysignQ, h, hs]
    norm_num

/-- Witness for `clamp_step_correct`: at `lastFiltered = 500` a median of
`700` is clamped to `500 + 80` with a clamp event, and a median of `560`
passes through unclamped. -/
theorem clamp_step_correct_witness :
    clampStep (some 500) 700 = (500 + 80, true) ∧
    clampStep (some 500) 560 = (560, false) :=
  ⟨(clamp_step_correct.2.1 500 700 (by norm_num)).1 (by norm_num),
   clamp_step_correct.2.2.1 500 560 (by norm_num)⟩

lemma on_message_reject (sensors : List (String × SensorState)) (sid : String)
    (raw ts now : ℚ) (st : SensorState)
    (hget : regGet sensors sid = some st)
    (hrej : 0 < st.last_ts ∧ ts < st.last_ts - OOO_SLACK_S) :
    on_message sensors (InMsg.payload (some sid) (some raw) (some ts)) now =
      (regSet sensors sid { st with total_ooo_dropped := st.total_ooo_dropped + 1 },
       none) := by
  simp only [on_message, Option.getD_some, hget, Option.isSome_some, if_true, try_accept,
    if_pos hrej]

/-- Claim C1: a sample whose timestamp is more than the 1-second slack
behind a positive watermark is rejected by the ingestion path: nothing
is published, the pipeline's `total_ooo_dropped` rises by exactly one
while every other field is unchanged, other sensors' pipelines are
untouched, and submitting the same timestamp twice yields two rejections
and no other mutation. -/
theorem ooo_reject_pure (sensors : List (String × SensorState)) (sid : String)
    (raw ts now : ℚ) (st : SensorState)
    (hget : regGet sensors sid = some st)
    (hpos : 0 < st.last_ts) (hold : ts < st.last_ts - 1) :
    on_message sensors (InMsg.payload (some sid) (some raw) (some ts)) now =
      (regSet sensors sid { st with total_ooo_dropped := st.total_ooo_dropped + 1 },
       none) ∧
    (∀ sid' : String, sid' ≠ sid →
        regGet (on_message sensors (InMsg.payload (some sid) (some raw) (some ts)) now).1
            sid' = regGet sensors sid') ∧
    on_message (on_message sensors (InMsg.payload (some sid) (some raw) (some ts)) now).1
        (InMsg.payload (some sid) (some raw) (some ts)) now =
      (regSet sensors sid { st with total_ooo_dropped := st.total_ooo_dropped + 2 },
       none) := by
  have hcond : 0 < st.last_ts ∧ ts < st.last_ts - OOO_SLACK_S :=
    ⟨hpos, by simpa [OOO_SLACK_S] using hold⟩
  have h1 := on_message_reject sensors sid raw ts now st hget hcond
  refine ⟨h1, ?_, ?_⟩
  · intro sid' hne
    rw [h1]
    exact regGet_regSet_ne sensors sid sid' _ hne
  · rw [h1]
    have h2 := on_message_reject
      (regSet sensors sid { st with total_ooo_dropped := st.total_ooo_dropped + 1 })
      sid raw ts now
      { st with total_ooo_dropped := st.total_ooo_dropped + 1 }
      (regGet_regSet_self sensors sid _) ⟨hpos, hcond.2⟩
    rw [h2, regSet_regSet]

/-- Witness for `ooo_reject_pure`: a pipeline with watermark 100 rejects
a sample stamped 50 twice, leaving only the drop counter changed. -/
theorem ooo_reject_pure_witness :
    on_message [("s", { initState "s" with last_ts := 100 })]
        (InMsg.payload (some "s") (some 7) (some 50)) 0 =
      (regSet [("s", { initState "s" with last_ts := 100 })] "s"
         { initState "s" with last_ts := 100, total_ooo_dropped := 1 },
       none) ∧
    on_message
        (on_message [("s", { initState "s" with last_ts := 100 })]
          (InMsg.payload (some "s") (some 7) (some 50)) 0).1
        (InMsg.payload (some "s") (some 7) (some 50)) 0 =
      (regSet [("s", { initState "s" with last_ts := 100 })] "s"
         { initState "s" with last_ts := 100, total_ooo_dropped := 2 },
       none) := by
  have h := ooo_reject_pure [("s", { initState "s" with last_ts := 100 })] "s" 7 50 0
    { initState "s" with last_ts := 100 }
    (by simp [regGet]) (by norm_num [initState]) (by norm_num [initState])
  exact ⟨h.1, h.2.2⟩

lemma processList_last_ts (samples : List Sample) (st : SensorState) :
    (processList st samples).last_ts =
      (samples.map (fun c => c.2.1)).foldl max st.last_ts := by
  induction samples generalizing st with
  | nil => rfl
  | cons c rest ih =>
      rw [processList_cons, ih]
      rfl

lemma foldl_max_init_le (l : List ℚ) (b : ℚ) : b ≤ l.foldl max b := by
  induction l generalizing b with
  | nil => exact le_refl b
  | cons x l ih => exact le_trans (le_max_left b x) (ih (max b x))

lemma le_foldl_max_of_mem (l : List ℚ) (b x : ℚ) (hx : x ∈ l) : x ≤ l.foldl max b := by
  induction l generalizing b with
  | nil => cases hx
  | cons y l ih =>
      rcases List.mem_cons.1 hx with rfl | h
      · exact le_trans (le_max_right b x) (foldl_max_init_le l (max b x))
      · exact ih (max b y) h

lemma foldl_max_cases (l : List ℚ) (b : ℚ) : l.foldl max b = b ∨ l.foldl max b ∈ l := by
  induction l generalizing b with
  | nil => exact Or.inl rfl
  | cons y l ih =>
      rcases ih (max b y) with h | h
      · rcases max_choice b y with hm | hm
        · exact Or.inl (by rw [List.foldl_cons, h, hm])
        · exact Or.inr (by rw [List.foldl_cons, h, hm]; exact List.mem_cons_self y l)
      · exact Or.inr (List.mem_cons_of_mem y h)

lemma foldl_max_perm (l1 l2 : List ℚ) (h : List.Perm l1 l2) (b : ℚ) :
    l1.foldl max b = l2.foldl max b := by
  induction h generalizing b with
  | nil => rfl
  | cons x h ih => simp only [List.foldl_cons]; exact ih (max b x)
  | swap x y l => simp only [List.foldl_cons, sup_right_comm]
  | trans h1 h2 ih1 ih2 => exact (ih1 b).trans (ih2 b)

/-- Claim C3 (counterexample): a fresh pipeline accepts a sample stamped
`-5` (the guard needs a positive watermark), yet afterwards
`lastTimestamp` is `0`, not the maximum accepted timestamp `-5` —
`lastTimestamp = max(lastTimestamp, ts)` starts from the initial
watermark `0`. -/
theorem last_ts_negative_ts_cex :
    (ingest (initState "s") 100 (-5) 0).2.isSome = true ∧
    (processList (initState "s") [(100, -5, 0)]).last_ts = 0 ∧
    ¬ (processList (initState "s") [(100, -5, 0)]).last_ts = -5 := by
  refine ⟨by norm_num [ingest, try_accept, initState, OOO_SLACK_S], ?_, ?_⟩
  · rw [processList_last_ts]
    simp [initState]
  · rw [processList_last_ts]
    simp [initState]

/-- Claim C3 (amended): `lastTimestamp` never decreases across accepted
samples, is independent of the arrival order of the accepted samples,
and after a non-empty run from a fresh pipeline it equals the maximum of
`0` (the initial watermark) and the largest accepted timestamp: it is
nonnegative, an upper bound of all accepted timestamps, and is either
`0` or one of them — so it equals the largest accepted timestamp
whenever any accepted timestamp is nonnegative. -/
theorem last_ts_watermark :
    (∀ st : SensorState, ∀ raw ts now : ℚ,
        st.last_ts ≤ (process st raw ts now).1.last_ts) ∧
    (∀ sid : String, ∀ samples1 samples2 : List Sample, List.Perm samples1 samples2 →
        (processList (initState sid) samples1).last_ts =
          (processList (initState sid) samples2).last_ts) ∧
    (∀ sid : String, ∀ samples : List Sample, samples ≠ [] →
        0 ≤ (processList (initState sid) samples).last_ts ∧
        (∀ c ∈ samples, c.2.1 ≤ (processList (initState sid) samples).last_ts) ∧
        ((processList (initState sid) samples).last_ts = 0 ∨
         ∃ c ∈ samples, (processList (initState sid) samples).last_ts = c.2.1)) := by
  refine ⟨fun st raw ts now => le_max_left _ _, ?_, ?_⟩
  · intro sid samples1 samples2 h
    rw [processList_last_ts, processList_last_ts]
    exact foldl_max_perm _ _ (h.map _) _
  · intro sid samples _
    rw [processList_last_ts]
    refine ⟨foldl_max_init_le _ _, ?_, ?_⟩
    · intro c hc
      exact le_foldl_max_of_mem _ _ _ (List.mem_map_of_mem _ hc)
    · rcases foldl_max_cases (samples.map (fun c => c.2.1)) (initState sid).last_ts
        with h | h
      · exact Or.inl h
      · rcases List.mem_map.1 h with ⟨c, hc, heq⟩
        exact Or.inr ⟨c, hc, heq.symm⟩

/-- Witness for `last_ts_watermark`: the watermark after the run
`[(1,5,0),(2,3,0)]` equals the one after the swapped run, and is
nonnegative. -/
theorem last_ts_watermark_witness :
    (processList (initState "w") [(1, 5, 0), (2, 3, 0)]).last_ts =
      (processList (initState "w") [(2, 3, 0), (1, 5, 0)]).last_ts ∧
    0 ≤ (processList (initState "w") [(1, 5, 0), (2, 3, 0)]).last_ts :=
  ⟨last_ts_watermark.2.1 "w" _ _ (List.Perm.swap _ _ _),
   (last_ts_watermark.2.2 "w" [(1, 5, 0), (2, 3, 0)] (by simp)).1⟩

lemma runNoise_append (l : List (ℚ × ℚ)) (c : ℚ × ℚ) :
    runNoise (l ++ [c]) = noiseStep (runNoise l).1 (runNoise l).2 c.1 c.2 := by
  simp [runNoise, List.foldl_append]

lemma runNoise_since_streak (calls : List (ℚ × ℚ)) :
    (runNoise calls).1 ≠ 0 →
    ∃ k, k < calls.length ∧ (calls.getD k (0, 0)).2 = (runNoise calls).1 ∧
      ∀ j, k ≤ j → j < calls.length → 60 < (calls.getD j (0, 0)).1 := by
  induction calls using List.reverseRecOn with
  | nil => intro h; simp [runNoise] at h
  | append_singleton l c ih =>
      rw [runNoise_append]
      simp only [noiseStep, NOISY_RESIDUAL_THRESH, NOISY_PERSIST_S]
      intro h
      by_cases hv : (60 : ℚ) < c.1
      · rw [if_pos hv] at h ⊢
        by_cases hns : (runNoise l).1 = 0
        · rw [if_pos hns] at h ⊢
          refine ⟨l.length, by simp, ?_, ?_⟩
          · rw [List.getD_append_right _ _ _ _ (le_refl _)]
            simp
          · intro j hj1 hj2
            simp only [List.length_append, List.length_singleton] at hj2
            have hje : j = l.length := by omega
            subst hje
            rw [List.getD_append_right _ _ _ _ (le_refl _)]
            simpa using hv
        · rw [if_neg hns] at h ⊢
          obtain ⟨k, hk, hts, hstreak⟩ := ih hns
          refine ⟨k, ?_, ?_, ?_⟩
          · simp only [List.length_append, List.length_singleton]
            omega
          · rw [List.getD_append _ _ _ _ hk]
            exact hts
          · intro j hj1 hj2
            simp only [List.length_append, List.length_singleton] at hj2
            rcases lt_or_ge j l.length with hjl | hjl
            · rw [List.getD_append _ _ _ _ hjl]
              exact hstreak j hj1 hjl
            · have hje : j = l.length := by omega
              subst hje
              rw [List.getD_append_right _ _ _ _ (le_refl _)]
              simpa using hv
      · rw [if_neg hv] at h
        simp at h

/-- Claim C5: with the wall clock an input of each call, `isNoisy`
becomes true in a call only if the residual variance exceeds 60.0 in
that call and in every call since some earlier call whose wall-clock
instant is at least 3.0 seconds before it (`noisySince` holds the first
instant of the current above-threshold streak); any call whose variance
is at most 60.0 clears `noisySince` and `isNoisy`; concretely, variance
100 at instants 10 and 12 (a 2-second span) never sets the flag, while
instants 10, 11, 13.5 (a 3.5-second span) set it.  (`process` drives its
`noisy_since`/`is_noisy` fields exactly through `noiseStep` on the new
residual window's variance.) -/
theorem noisy_debounce :
    (∀ calls : List (ℚ × ℚ), ∀ v t : ℚ,
        (runNoise calls).2 = false →
        (runNoise (calls ++ [(v, t)])).2 = true →
        60 < v ∧ ∃ k, k < calls.length ∧ (calls.getD k (0, 0)).2 ≤ t - 3 ∧
          ∀ j, k ≤ j → j < calls.length → 60 < (calls.getD j (0, 0)).1) ∧
    (∀ since : ℚ, ∀ b : Bool, ∀ v t : ℚ, v ≤ 60 →
        noiseStep since b v t = (0, false)) ∧
    (∀ st : SensorState, ∀ raw ts now : ℚ,
        ((process st raw ts now).1.noisy_since, (process st raw ts now).1.is_noisy) =
          noiseStep st.noisy_since st.is_noisy
            (resVarScore (process st raw ts now).1.residual_buffer).1 now) ∧
    (runNoise [(100, 10)]).2 = false ∧
    (runNoise [(100, 10), (100, 12)]).2 = false ∧
    (runNoise [(100, 10), (100, 11), (100, 27/2)]).2 = true := by
  refine ⟨?_, ?_, fun st raw ts now => rfl, ?_, ?_, ?_⟩
  · intro calls v t hfalse htrue
    rw [runNoise_append] at htrue
    simp only [noiseStep, NOISY_RESIDUAL_THRESH, NOISY_PERSIST_S] at htrue
    by_cases hv : (60 : ℚ) < v
    · refine ⟨hv, ?_⟩
      rw [if_pos hv] at htrue
      by_cases hns : (runNoise calls).1 = 0
      · rw [if_pos hns] at htrue
        simp only at htrue
        have : ¬ ((3 : ℚ) ≤ t - t) := by norm_num
        rw [if_neg this] at htrue
        exact absurd htrue (by rw [hfalse]; simp)
      · rw [if_neg hns] at htrue
        simp only at htrue
        by_cases hper : (3 : ℚ) ≤ t - (runNoise calls).1
        · obtain ⟨k, hk, hts, hstreak⟩ := runNoise_since_streak calls hns
          refine ⟨k, hk, ?_, hstreak⟩
          rw [hts]
          linarith
        · rw [if_neg hper] at htrue
          exact absurd htrue (by rw [hfalse]; simp)
    · rw [if_neg hv] at htrue
      simp at htrue
  · intro since b v t hv
    simp only [noiseStep, NOISY_RESIDUAL_THRESH]
    rw [if_neg (by linarith)]
  · norm_num [runNoise, noiseStep, NOISY_RESIDUAL_THRESH, NOISY_PERSIST_S]
  · norm_num [runNoise, noiseStep, NOISY_RESIDUAL_THRESH, NOISY_PERSIST_S]
  · norm_num [runNoise, noiseStep, NOISY_RESIDUAL_THRESH, NOISY_PERSIST_S]

/-- Witness for `noisy_debounce`: the run with variance 100 at instants
10 and 11 has not set the flag; the further call at instant 13.5 sets
it, and the theorem produces the 3.5-second above-threshold span. -/
theorem noisy_debounce_witness :
    60 < (100 : ℚ) ∧ ∃ k, k < ([((100 : ℚ), (10 : ℚ)), (100, 11)]).length ∧
      (([((100 : ℚ), (10 : ℚ)), (100, 11)]).getD k (0, 0)).2 ≤ 27/2 - 3 ∧
      ∀ j, k ≤ j → j < ([((100 : ℚ), (10 : ℚ)), (100, 11)]).length →
        60 < (([((100 : ℚ), (10 : ℚ)), (100, 11)]).getD j (0, 0)).1 :=
  noisy_debounce.1 [(100, 10), (100, 11)] 100 (27/2)
    (by norm_num [runNoise, noiseStep, NOISY_RESIDUAL_THRESH, NOISY_PERSIST_S])
    (by norm_num [runNoise, noiseStep, NOISY_RESIDUAL_THRESH, NOISY_PERSIST_S])

lemma process_residual_buffer (st : SensorState) (raw ts now : ℚ) :
    (process st raw ts now).1.residual_buffer =
      pushWindow RESIDUAL_WINDOW
        (raw - roundTo 2 (emaStep st.ema
          (clampStep st.last_filtered
            (medianQ (pushWindow MEDIAN_WINDOW raw st.raw_buffer))).1))
        st.residual_buffer := rfl

lemma process_noise_score (st : SensorState) (raw ts now : ℚ) :
    (process st raw ts now).2.noise_score =
      (resVarScore ((process st raw ts now).1.residual_buffer)).2 := rfl

/-- Claim C6 (counterexample): a reachable `process` call (raws 0, 0
then 1 on a fresh pipeline) returns `noise_score = 0.001`, while the
unrounded `clamp(sampleVariance(residualWindow)/500, 0, 1)` of its
residual window equals `1/1500 ≠ 0.001` — the code rounds the score to
3 decimal places before returning it. -/
theorem noise_score_rounding_cex :
    (process (processList (initState "s") [(0, 0, 0), (0, 0, 0)]) 1 0 0).2.noise_score
        = 1/1000 ∧
    min (max (varianceQ
        ((process (processList (initState "s") [(0, 0, 0), (0, 0, 0)]) 1 0 0).1.residual_buffer)
        / 500) 0) 1 = 1/1500 ∧
    ¬ ((1 : ℚ)/1000 = 1/1500) := by
  have h2 : processList (initState "s") [(0, 0, 0), (0, 0, 0)] =
      { sensor_id := "s", raw_buffer := [0, 0], residual_buffer := [0, 0],
        clamp_history := [0, 0], ema := some 0, last_filtered := some 0, last_ts := 0,
        total_received := 2, total_ooo_dropped := 0, noisy_since := 0,
        is_noisy := false } := by
    norm_num [processList, process, initState, pushWindow, medianQ, clampStep, emaStep,
      resVarScore, noiseStep, varianceQ, roundTo_zero, MEDIAN_WINDOW, RESIDUAL_WINDOW,
      SPIKE_CLAMP_WINDOW, NOISY_RESIDUAL_THRESH, NOISY_PERSIST_S, EMA_ALPHA, MAX_JUMP,
      copysignQ, min_def, max_def]
  have hfloor : ⌊(2 : ℚ)/3⌋ = 0 := floor_eq_of 0 _ (by norm_num) (by norm_num)
  have hm : medianQ (pushWindow MEDIAN_WINDOW 1 [0, 0]) = 0 := by
    norm_num [medianQ, pushWindow, MEDIAN_WINDOW]
  have hcl : clampStep (some 0) 0 = (0, false) := by norm_num [clampStep, MAX_JUMP]
  have hema : emaStep (some 0) 0 = 0 := by norm_num [emaStep, EMA_ALPHA]
  have hbuf : (process (processList (initState "s") [(0, 0, 0), (0, 0, 0)]) 1 0 0).1.residual_buffer
      = [0, 0, 1] := by
    rw [process_residual_buffer, h2]
    simp only
    rw [hm, hcl, hema, roundTo_zero]
    norm_num [pushWindow, RESIDUAL_WINDOW]
  refine ⟨?_, ?_, by norm_num⟩
  · rw [process_noise_score, hbuf]
    have hv : varianceQ [(0 : ℚ), 0, 1] = 1/3 := by norm_num [varianceQ]
    simp only [resVarScore, List.length_cons, List.length_nil]
    rw [if_pos (by norm_num), hv]
    have hmin : min ((1 : ℚ)/3/500) 1 = 1/1500 := by rw [min_def]; norm_num
    rw [hmin, roundTo]
    norm_num
    rw [rhe, hfloor]
    norm_num
  · rw [hbuf]
    have hv : varianceQ [(0 : ℚ), 0, 1] = 1/3 := by norm_num [varianceQ]
    rw [hv, max_def, min_def]
    norm_num

/-- Claim C6 (amended): when the residual window holds at least 3
samples after the push, the returned `noise_score` equals
`clamp(sampleVariance(residualWindow)/500, 0, 1)` *rounded to 3 decimal
places*; otherwise the score is 0 and the variance used for the
noise-persistence check is 0; in all cases the score lies in `[0, 1]`. -/
theorem noise_score_amended :
    ∀ st : SensorState, ∀ raw ts now : ℚ,
      (3 ≤ (process st raw ts now).1.residual_buffer.length →
        (process st raw ts now).2.noise_score =
          roundTo 3 (min (max (varianceQ
            ((process st raw ts now).1.residual_buffer) / 500) 0) 1)) ∧
      ((process st raw ts now).1.residual_buffer.length < 3 →
        (process st raw ts now).2.noise_score = 0 ∧
        (resVarScore ((process st raw ts now).1.residual_buffer)).1 = 0) ∧
      0 ≤ (process st raw ts now).2.noise_score ∧
      (process st raw ts now).2.noise_score ≤ 1 := by
  intro st raw ts now
  rw [process_noise_score]
  generalize (process st raw ts now).1.residual_buffer = buf
  refine ⟨?_, ?_, ?_, ?_⟩
  · intro h3
    have hv : 0 ≤ varianceQ buf / 500 :=
      div_nonneg (varianceQ_nonneg buf (by omega)) (by norm_num)
    simp only [resVarScore, if_pos h3]
    rw [max_eq_left hv]
  · intro h3
    simp [resVarScore, if_neg (by omega : ¬ 3 ≤ buf.length)]
  · by_cases h3 : 3 ≤ buf.length
    · simp only [resVarScore, if_pos h3]
      exact roundTo_nonneg 3 _
        (le_min (div_nonneg (varianceQ_nonneg buf (by omega)) (by norm_num))
          zero_le_one)
    · simp [resVarScore, if_neg h3]
  · by_cases h3 : 3 ≤ buf.length
    · simp only [resVarScore, if_pos h3]
      exact roundTo_le_one 3 _ (min_le_right _ 1)
    · simp [resVarScore, if_neg h3]

/-- Witness for `noise_score_amended`: the first call of a fresh
pipeline has one residual sample, so its noise score is 0 and within
bounds. -/
theorem noise_score_amended_witness :
    (process (initState "s") 0 0 0).2.noise_score = 0 ∧
    (process (initState "s") 0 0 0).2.noise_score ≤ 1 := by
  have hlen : (process (initState "s") 0 0 0).1.residual_buffer.length < 3 := by
    rw [process_residual_buffer, pushWindow_length]
    norm_num [initState, RESIDUAL_WINDOW]
  exact ⟨((noise_score_amended (initState "s") 0 0 0).2.1 hlen).1,
    (noise_score_amended (initState "s") 0 0 0).2.2.2⟩

lemma summaryScores_eq_filter_map (sensors : List (String × SensorState)) :
    summaryScores sensors =
      (sensors.filter (fun p => 3 ≤ p.2.residual_buffer.length)).map
        (fun p => varianceQ p.2.residual_buffer / 500) := by
  induction sensors with
  | nil => rfl
  | cons p rest ih =>
      simp only [summaryScores, List.foldr_cons, List.filter_cons] at ih ⊢
      by_cases h : 3 ≤ p.2.residual_buffer.length
      · simp [h, ih]
      · simp [h, ih]

set_option maxHeartbeats 1600000 in
/-- Claim C7 (counterexample): two reachable pipelines, one with
residuals `[0,0,60]` (variance 1200, unclamped ratio 2.4) and one with
residuals `[0,0,0]` (ratio 0), make the summary report `avg_noise = 1`
— the mean of the *unclamped* ratios, clamped afterwards — while the
mean of the individually clamped scores required by the claim is
`1/2`. -/
theorem summary_avg_clamp_cex :
    summaryAvgNoise
        [("a", processList (initState "a") [(0, 0, 0), (0, 0, 0), (60, 0, 0)]),
         ("b", processList (initState "b") [(0, 0, 0), (0, 0, 0), (0, 0, 0)])] = 1 ∧
    specMeanClampedScores
        [("a", processList (initState "a") [(0, 0, 0), (0, 0, 0), (60, 0, 0)]),
         ("b", processList (initState "b") [(0, 0, 0), (0, 0, 0), (0, 0, 0)])] = 1/2 ∧
    ¬ ((1 : ℚ) = 1/2) := by
  have hA2 : processList (initState "a") [(0, 0, 0), (0, 0, 0)] =
      { sensor_id := "a", raw_buffer := [0, 0], residual_buffer := [0, 0],
        clamp_history := [0, 0], ema := some 0, last_filtered := some 0, last_ts := 0,
        total_received := 2, total_ooo_dropped := 0, noisy_since := 0,
        is_noisy := false } := by
    norm_num [processList, process, initState, pushWindow, medianQ, clampStep, emaStep,
      resVarScore, noiseStep, varianceQ, roundTo_zero, MEDIAN_WINDOW, RESIDUAL_WINDOW,
      SPIKE_CLAMP_WINDOW, NOISY_RESIDUAL_THRESH, NOISY_PERSIST_S, EMA_ALPHA, MAX_JUMP,
      copysignQ, min_def, max_def]
  have hB2 : processList (initState "b") [(0, 0, 0), (0, 0, 0)] =
      { sensor_id := "b", raw_buffer := [0, 0], residual_buffer := [0, 0],
        clamp_history := [0, 0], ema := some 0, last_filtered := some 0, last_ts := 0,
        total_received := 2, total_ooo_dropped := 0, noisy_since := 0,
        is_noisy := false } := by
    norm_num [processList, process, initState, pushWindow, medianQ, clampStep, emaStep,
      resVarScore, noiseStep, varianceQ, roundTo_zero, MEDIAN_WINDOW, RESIDUAL_WINDOW,
      SPIKE_CLAMP_WINDOW, NOISY_RESIDUAL_THRESH, NOISY_PERSIST_S, EMA_ALPHA, MAX_JUMP,
      copysignQ, min_def, max_def]
  have hA : processList (initState "a") [(0, 0, 0), (0, 0, 0), (60, 0, 0)] =
      { sensor_id := "a", raw_buffer := [0, 0, 60], residual_buffer := [0, 0, 60],
        clamp_history := [0, 0, 0], ema := some 0, last_filtered := some 0, last_ts := 0,
        total_received := 3, total_ooo_dropped := 0, noisy_since := 0,
        is_noisy := false } := by
    have hsplit : processList (initState "a") [(0, 0, 0), (0, 0, 0), (60, 0, 0)] =
        (process (processList (initState "a") [(0, 0, 0), (0, 0, 0)]) 60 0 0).1 := rfl
    rw [hsplit, hA2]
    norm_num [process, pushWindow, medianQ, clampStep, emaStep,
      resVarScore, noiseStep, varianceQ, roundTo_zero, MEDIAN_WINDOW, RESIDUAL_WINDOW,
      SPIKE_CLAMP_WINDOW, NOISY_RESIDUAL_THRESH, NOISY_PERSIST_S, EMA_ALPHA, MAX_JUMP,
      copysignQ, min_def, max_def]
  have hB : processList (initState "b") [(0, 0, 0), (0, 0, 0), (0, 0, 0)] =
      { sensor_id := "b", raw_buffer := [0, 0, 0], residual_buffer := [0, 0, 0],
        clamp_history := [0, 0, 0], ema := some 0, last_filtered := some 0, last_ts := 0,
        total_received := 3, total_ooo_dropped := 0, noisy_since := 0,
        is_noisy := false } := by
    have hsplit : processList (initState "b") [(0, 0, 0), (0, 0, 0), (0, 0, 0)] =
        (process (processList (initState "b") [(0, 0, 0), (0, 0, 0)]) 0 0 0).1 := rfl
    rw [hsplit, hB2]
    norm_num [process, pushWindow, medianQ, clampStep, emaStep,
      resVarScore, noiseStep, varianceQ, roundTo_zero, MEDIAN_WINDOW, RESIDUAL_WINDOW,
      SPIKE_CLAMP_WINDOW, NOISY_RESIDUAL_THRESH, NOISY_PERSIST_S, EMA_ALPHA, MAX_JUMP,
      copysignQ, min_def, max_def]
  rw [hA, hB]
  refine ⟨?_, ?_, by norm_num⟩
  · norm_num [summaryAvgNoise, summaryScores, varianceQ, min_def, roundTo_one]
  · norm_num [specMeanClampedScores, varianceQ, min_def, max_def]

/-- Claim C7 (amended): the summary's `avg_noise` averages the
*unclamped* per-sensor values `variance/500` over exactly the sensors
whose residual window holds at least 3 samples — sensors with fewer
residuals are excluded from numerator and denominator, not counted as
zero — and clamps (and rounds to 3 decimal places) the *mean*: when all
sensors are eligible it equals `round₃(min(mean(variance/500), 1))`. -/
theorem summary_avg_amended :
    (∀ sensors : List (String × SensorState), ∀ p : String × SensorState,
        p.2.residual_buffer.length < 3 →
        summaryAvgNoise (p :: sensors) = summaryAvgNoise sensors) ∧
    (∀ sensors : List (String × SensorState),
        summaryScores sensors =
          (sensors.filter (fun p => 3 ≤ p.2.residual_buffer.length)).map
            (fun p => varianceQ p.2.residual_buffer / 500)) ∧
    (∀ sensors : List (String × SensorState), sensors ≠ [] →
        (∀ p ∈ sensors, 3 ≤ p.2.residual_buffer.length) →
        summaryAvgNoise sensors =
          roundTo 3 (min
            ((sensors.map (fun p => varianceQ p.2.residual_buffer / 500)).sum /
              (sensors.length : ℚ)) 1)) := by
  refine ⟨?_, summaryScores_eq_filter_map, ?_⟩
  · intro sensors p h
    simp only [summaryAvgNoise, summaryScores, List.foldr_cons,
      if_neg (by omega : ¬ 3 ≤ p.2.residual_buffer.length)]
  · intro sensors hne hall
    have hfil : sensors.filter (fun p => 3 ≤ p.2.residual_buffer.length) = sensors := by
      rw [List.filter_eq_self]
      intro a ha
      simpa using hall a ha
    have hs : summaryScores sensors =
        sensors.map (fun p => varianceQ p.2.residual_buffer / 500) := by
      rw [summaryScores_eq_filter_map, hfil]
    simp only [summaryAvgNoise, hs]
    rw [if_neg (by simp [List.isEmpty_iff, hne])]
    rw [List.length_map]

/-- Witness for `summary_avg_amended`: a sensor with an empty residual
window does not change the reported average at all. -/
theorem summary_avg_amended_witness :
    summaryAvgNoise [("x", initState "x")] = summaryAvgNoise [] :=
  summary_avg_amended.1 [] ("x", initState "x") (by simp [initState])

end Sensor
